import Mathlib

/-!
Verification development for the lumi command-dispatch core (moth-rs/lumi).

The Rust source is shallowly embedded: strings are lists of characters
(`Str`), fallible slicing models Rust's panicking byte-index slices via
`Option`, async callbacks and platform lookups are oracle values carried in
the context structures, and `Except` models early-return control flow.
All inputs of interest are ASCII, so char counts coincide with Rust's byte
counts and Lean's `Char.isWhitespace` agrees with Rust on the separators
that occur.
-/

namespace Lumi

/-- A Rust `&str`, modelled as its list of characters. -/
abbrev Str := List Char

/-- Coerce a Lean string literal into the model. -/
def str (s : String) : Str := s.data

/-- Rust `char::is_whitespace` (ASCII fragment; inputs here are ASCII). -/
def isWs (c : Char) : Bool := c.isWhitespace

/-- Rust `u8::to_ascii_lowercase` lifted to chars. -/
def asciiLower (c : Char) : Char :=
  if 'A' ≤ c && c ≤ 'Z' then Char.ofNat (c.toNat + 32) else c

/-- Rust `char::eq_ignore_ascii_case`. -/
def eqIgnoreAsciiCase (a b : Char) : Bool := asciiLower a == asciiLower b

/-- Rust `str::starts_with` on the model: does `s` start with `p`? -/
def strStartsWith : Str → Str → Bool
  | _, [] => true
  | [], _ :: _ => false
  | c :: cs, d :: ds => c == d && strStartsWith cs ds

/-- Rust `str::strip_prefix`: `some` of the remainder when `p` heads `s`. -/
def stripLit : Str → Str → Option Str
  | s, [] => some s
  | [], _ :: _ => none
  | c :: cs, d :: ds => if c == d then stripLit cs ds else none

/-- Rust `str::trim_start`. -/
def trimStart : Str → Str
  | [] => []
  | c :: cs => if isWs c then trimStart cs else c :: cs

/-- Rust `str::trim_start_matches(ch)`. -/
def trimStartMatches (ch : Char) : Str → Str
  | [] => []
  | c :: cs => if c == ch then trimStartMatches ch cs else c :: cs

/-- Rust `s.splitn(2, char::is_whitespace)`: the text before the first
whitespace char, and everything after that char. -/
def splitOnceWs : Str → Str × Str
  | [] => ([], [])
  | c :: cs =>
    if isWs c then ([], cs)
    else
      let p := splitOnceWs cs
      (c :: p.1, p.2)

/-- Rust slice `&s[i..]`: `none` models the out-of-bounds panic. -/
def sliceFrom (s : Str) (i : Nat) : Option Str :=
  if i ≤ s.length then some (s.drop i) else none

/-- Rust `str::eq_ignore_ascii_case`. -/
def strEqIgnoreAsciiCase : Str → Str → Bool
  | [], [] => true
  | a :: xs, b :: ys => eqIgnoreAsciiCase a b && strEqIgnoreAsciiCase xs ys
  | _, _ => false

/-! ## Cooldowns

The `CooldownTracker` type lives in a file of this repository that is not
under `src/` (only its callers are), so it is modelled from the spec. -/

/-- Cooldown bucket key, from `Context::cooldown_context`
(src/structs/context.rs): actor id, channel id, optional guild id. -/
structure CooldownContext where
  user_id : Nat
  channel_id : Nat
  guild_id : Option Nat
deriving DecidableEq

/-- Modelled from the spec: the per-command cooldown configuration
(`crate::CooldownConfig`, not under src/). Its fields configure bucket-key
composition and durations; nothing in the embedded code inspects them, so it
is kept as an opaque token. -/
structure CooldownConfig where
deriving DecidableEq

/-- Modelled from the spec: `crate::CooldownTracker` (not under src/): the
"mutable cooldown-tracking state", a store of remaining wait times per bucket
key. -/
structure CooldownTracker where
  entries : List (CooldownContext × Nat)
deriving DecidableEq

/-- Modelled from the spec: `CooldownTracker::remaining_cooldown`, the
read-only query "for remaining wait time under the bucket key derived from
the current actor/channel/guild"; per the spec, "Cooldown timers are not
started by this step — only read", so it returns no updated tracker.
(The source call site in src/dispatch/common.rs also takes the mutex guard
as an immutable binding.) -/
def remaining_cooldown (t : CooldownTracker) (cctx : CooldownContext)
    (_config : CooldownConfig) : Option Nat :=
  (t.entries.find? (fun e => e.1 == cctx)).map (fun e => e.2)

/-! ## The Command data model (src/structs/command.rs)

All fields of `Command<T, E>` that the embedded functions inspect. Action
callbacks are modelled by their presence, and check callbacks by the result
each would return on the current invocation (an oracle list). -/

/-- The result one `checks` callback (or the global `command_check`) returns
for the current invocation: `Ok(true)`, `Ok(false)`, or `Err(e)` with the
user error modelled as a number. -/
inductive CheckOutcome where
  | passed
  | failed
  | errored (e : Nat)
deriving DecidableEq

structure CmdData where
  prefix_action : Bool
  slash_action : Bool
  subcommand_required : Bool
  name : Str
  aliases : List Str
  manual_cooldowns : Option Bool
  has_modifier : Bool
  cooldowns : CooldownTracker
  cooldown_config : CooldownConfig
  reuse_response : Bool
  required_permissions : Nat
  required_bot_permissions : Nat
  owners_only : Bool
  guild_only : Bool
  dm_only : Bool
  nsfw_only : Bool
  checks : List CheckOutcome
  invoke_on_edit : Bool
  track_deletion : Bool
  broadcast_typing : Bool
deriving DecidableEq

/-- A command node: its scalar data and its subcommand list (`Command` is one
Rust struct; the recursive `subcommands` field is split off so the type is a
nested inductive). -/
inductive Cmd where
  | node (data : CmdData) (subcommands : List Cmd)

def Cmd.data : Cmd → CmdData
  | .node d _ => d

def Cmd.subcommands : Cmd → List Cmd
  | .node _ s => s

/-- A command with every flag off, for building concrete test inputs. -/
def blankData (name : Str) : CmdData where
  prefix_action := true
  slash_action := false
  subcommand_required := false
  name := name
  aliases := []
  manual_cooldowns := none
  has_modifier := false
  cooldowns := ⟨[]⟩
  cooldown_config := ⟨⟩
  reuse_response := false
  required_permissions := 0
  required_bot_permissions := 0
  owners_only := false
  guild_only := false
  dm_only := false
  nsfw_only := false
  checks := []
  invoke_on_edit := false
  track_deletion := false
  broadcast_typing := false

/-! ## Command-tree lookup (src/dispatch/prefix.rs, `find_command` and its
`starts_with` helpers)

`Except Unit` threads the possibility of a Rust panic: `.error ()` models a
panicking out-of-bounds string slice. -/

/-- src/dispatch/prefix.rs `starts_with_ignore_ascii_case`: walks the chars
of `needle`, consuming one char of `haystack` per step; on full success
returns the rest of `haystack`. -/
def starts_with_ignore_ascii_case : Str → Str → Bool × Str
  | [], h => (true, h)
  | _ :: _, [] => (false, [])
  | n :: ns, h :: hs =>
    if eqIgnoreAsciiCase h n then starts_with_ignore_ascii_case ns hs
    else (false, [])

/-- src/dispatch/prefix.rs `starts_with`. The case-sensitive branch returns
`&needle[haystack.len()..]` — slicing the NEEDLE at the HAYSTACK's length —
which panics (modelled as `none`) whenever the haystack is strictly longer
than the needle it starts with. -/
def starts_with (needle haystack : Str) (case_insensitive : Bool) :
    Option (Bool × Str) :=
  if case_insensitive then
    some (starts_with_ignore_ascii_case needle haystack)
  else if strStartsWith haystack needle then
    (sliceFrom needle haystack.length).map (fun rest => (true, rest))
  else
    some (false, [])

/-- The `find_map` over aliases inside `find_command`'s modifier branch. -/
def aliasModMatch : List Str → Str → Bool → Except Unit (Option Str)
  | [], _, _ => .ok none
  | alias1 :: rest, command_name, ci =>
    match starts_with alias1 command_name ci with
    | none => .error ()
    | some (is_match, mod_str) =>
      if is_match then .ok (some mod_str) else aliasModMatch rest command_name ci

/-- The `string_equal` closure of `find_command`. -/
def string_equal (case_insensitive : Bool) (a b : Str) : Bool :=
  if case_insensitive then strEqIgnoreAsciiCase a b else a == b

/-- The per-command name/alias matching header of `find_command`'s loop body
(src/dispatch/prefix.rs lines 134-157): yields
(primary_name_matches, alias_matches, mod_chars). -/
def matchHeader (data : CmdData) (subcommands : List Cmd) (command_name : Str)
    (case_insensitive : Bool) : Except Unit (Bool × Bool × Str) :=
  if data.has_modifier && subcommands.isEmpty then
    match starts_with data.name command_name case_insensitive with
    | none => .error ()
    | some (primary_match, primary_mod) =>
      if primary_match then .ok (true, false, primary_mod)
      else
        match aliasModMatch data.aliases command_name case_insensitive with
        | .error e => .error e
        | .ok alias_match => .ok (false, alias_match.isSome, alias_match.getD [])
  else
    .ok (string_equal case_insensitive data.name command_name,
      data.aliases.any (fun a => string_equal case_insensitive a command_name),
      [])

/-- src/dispatch/prefix.rs `find_command`. Returns the matched command, its
modifier chars, the verbatim matched token, the remaining argument string,
and the final parent-command stack (the source mutates `parent_commands` by
push, recurse, and pop-on-no-deeper-match; the accumulator mirrors that).
The source splits `remaining_message` once before its sibling loop; splitting
afresh at each sibling is the same pure value. -/
def find_command : List Cmd → Str → Bool → List Cmd →
    Except Unit (Option (Cmd × Str × Str × Str × List Cmd))
  | [], _, _, _ => .ok none
  | .node data subs :: rest, remaining_message, case_insensitive,
      parent_commands =>
    let s := splitOnceWs remaining_message
    let command_name := s.1
    let remaining := trimStart s.2
    match matchHeader data subs command_name case_insensitive with
    | .error e => .error e
    | .ok (primary_name_matches, alias_matches, mod_chars) =>
      if primary_name_matches || alias_matches then
        match find_command subs remaining case_insensitive
            (parent_commands ++ [Cmd.node data subs]) with
        | .error e => .error e
        | .ok (some res) => .ok (some res)
        | .ok none =>
          .ok (some (Cmd.node data subs, mod_chars, command_name, remaining,
            parent_commands))
      else
        find_command rest remaining_message case_insensitive parent_commands

/-! ## Framework errors (src/structs/framework_error.rs)

The variants the embedded code can produce, with payloads reduced to the
data the claims inspect; user error types are modelled as numbers. -/

inductive FwError where
  | subcommandRequired
  | cooldownHit (remaining : Nat)
  | missingBotPermissions (missing : Nat)
  | missingUserPermissions (missing : Option Nat)
  | permissionFetchFailed
  | notAnOwner
  | guildOnly
  | dmOnly
  | nsfwOnly
  | commandCheckFailed (error : Option Nat)
  | unknownCommand (msg_content : Str)
deriving DecidableEq

/-! ## Prefix resolver (src/dispatch/prefix.rs, `strip_prefix`)

The two dynamic callbacks are user code; each is modelled by the result it
returns for the message at hand. A regex is modelled by its `find` function,
returning the (start, end) of the leftmost match. A callback error is
reported through `on_error` and falls through to the next strategy; only the
fall-through matters here, so the report itself is not logged. -/

/-- Result of the `dynamic_prefix` callback on this message. -/
inductive DynPrefixResult where
  | returned (p : Option Str)
  | errored (e : Nat)

/-- Result of the `stripped_dynamic_prefix` callback on this message. -/
inductive StrippedDynResult where
  | returned (pair : Option (Str × Str))
  | errored (e : Nat)

/-- One entry of `additional_prefixes` (`crate::Prefix`). -/
inductive PrefixKind where
  | literal (p : Str)
  | regex (find : Str → Option (Nat × Nat))

/-- The prefix-related options of `PrefixFrameworkOptions` that the embedded
dispatch path reads (the source field `prefix` is named `static_prefix`
here). -/
structure PrefixOptions where
  dynamic_prefix : Option DynPrefixResult
  static_prefix : Option Str
  additional_prefixes : List PrefixKind
  stripped_dynamic_prefix : Option StrippedDynResult
  mention_as_prefix : Bool
  case_insensitive_commands : Bool
  ignore_bots : Bool
  execute_self_messages : Bool
  ignore_thread_creation : Bool

/-- The closure at src/dispatch/prefix.rs lines 87-100: strip a leading
mention of the bot (`<@ID>` or `<@!ID>`), returning the mention text and the
rest. -/
def mentionStrip (bot_id content : Str) : Option (Str × Str) :=
  match stripLit content (str "<@") with
  | none => none
  | some s1 =>
    match stripLit (trimStartMatches '!' s1) bot_id with
    | none => none
    | some s3 =>
      match stripLit s3 (str ">") with
      | none => none
      | some stripped_content =>
        some (content.take (content.length - stripped_content.length),
          stripped_content)

/-- The `find_map` closure over `additional_prefixes` (src/dispatch/prefix.rs
lines 51-62): a literal is stripped with `strip_prefix`; a regex match must
start at position 0 and the text is split at the match end. -/
def tryAdditional (content : Str) : PrefixKind → Option (Str × Str)
  | .literal p => (stripLit content p).map (fun c => (p, c))
  | .regex find =>
    match find content with
    | some (s0, e0) =>
      if s0 == 0 then some (content.take e0, content.drop e0) else none
    | none => none

/-- src/dispatch/prefix.rs `strip_prefix`: the sequential early-return chain
over the five prefix strategies. -/
def stripPrefix (opts : PrefixOptions) (bot_id : Str) (content : Str) :
    Option (Str × Str) :=
  match (match opts.dynamic_prefix with
    | some (.returned (some p)) =>
      if strStartsWith content p then
        some (content.take p.length, content.drop p.length)
      else none
    | _ => none) with
  | some r => some r
  | none =>
    match (match opts.static_prefix with
      | some p => (stripLit content p).map (fun c => (p, c))
      | none => none) with
    | some r => some r
    | none =>
      match opts.additional_prefixes.findSome? (tryAdditional content) with
      | some r => some r
      | none =>
        match (match opts.stripped_dynamic_prefix with
          | some (.returned (some pair)) => some pair
          | _ => none) with
        | some r => some r
        | none =>
          if opts.mention_as_prefix then mentionStrip bot_id content
          else none

/-! Spec-side strategy functions, one per numbered strategy of spec §4.2,
for comparison with the translated `stripPrefix`. -/

/-- Spec strategy (1): dynamic callback prefix, substring match at 0. -/
def strategyDynamic (opts : PrefixOptions) (content : Str) :
    Option (Str × Str) :=
  match opts.dynamic_prefix with
  | some (.returned (some p)) =>
    if strStartsWith content p then
      some (content.take p.length, content.drop p.length)
    else none
  | _ => none

/-- Spec strategy (2): the single static literal prefix. -/
def strategyStatic (opts : PrefixOptions) (content : Str) :
    Option (Str × Str) :=
  match opts.static_prefix with
  | some p => (stripLit content p).map (fun c => (p, c))
  | none => none

/-- Spec strategy (3): the ordered additional prefixes. -/
def strategyAdditional (opts : PrefixOptions) (content : Str) :
    Option (Str × Str) :=
  opts.additional_prefixes.findSome? (tryAdditional content)

/-- Spec strategy (4): the stripped-dynamic callback's own (prefix, rest). -/
def strategyStrippedDynamic (opts : PrefixOptions) : Option (Str × Str) :=
  match opts.stripped_dynamic_prefix with
  | some (.returned (some pair)) => some pair
  | _ => none

/-- Spec strategy (5): the bot-mention prefix, tested last. -/
def strategyMention (opts : PrefixOptions) (bot_id content : Str) :
    Option (Str × Str) :=
  if opts.mention_as_prefix then mentionStrip bot_id content else none

/-- First success among an ordered list of strategy results. -/
def firstSome : List (Option (Str × Str)) → Option (Str × Str)
  | [] => none
  | some r :: _ => some r
  | none :: rest => firstSome rest

/-! ## Message parsing (src/dispatch/prefix.rs, `parse_invocation`) -/

/-- The fields of an inbound message that `parse_invocation` reads. -/
structure MsgIn where
  content : Str
  author_is_bot : Bool
  author_is_current_user : Bool
  kind_thread_created : Bool

/-- Outcome of `parse_invocation`: `panicked` models a Rust panic escaping
from `find_command`; `notACommand` is the source's `Ok(None)`; `failed` is
`Err(..)`; `invocation` is `Ok(Some(PrefixContext { .. }))` carrying the
matched prefix, command, modifier chars, verbatim name, argument string and
parent commands. -/
inductive ParseOutcome where
  | panicked
  | failed (e : FwError)
  | notACommand
  | invocation (matched : Str) (command : Cmd) (mod_chars : Str)
      (invoked_command_name : Str) (args : Str) (parents : List Cmd)

/-- src/dispatch/prefix.rs `parse_invocation`: bot/self/thread-creation
filters, prefix stripping, command lookup, and the prefix-action check. A
resolved command without a `prefix_action` yields `Ok(None)` — the message
is treated as not a command invocation (lines 292-296). -/
def parse_invocation (opts : PrefixOptions) (commands : List Cmd)
    (bot_id : Str) (msg : MsgIn) : ParseOutcome :=
  if msg.author_is_bot && opts.ignore_bots then .notACommand
  else if msg.author_is_current_user && !opts.execute_self_messages then
    .notACommand
  else if msg.kind_thread_created && opts.ignore_thread_creation then
    .notACommand
  else
    match stripPrefix opts bot_id msg.content with
    | none => .notACommand
    | some (matched, msg_content) =>
      let msg_content := trimStart msg_content
      match find_command commands msg_content opts.case_insensitive_commands
          [] with
      | .error _ => .panicked
      | .ok none => .failed (.unknownCommand msg_content)
      | .ok (some (command, mod_chars, invoked_command_name, args, parents)) =>
        if command.data.prefix_action then
          .invocation matched command mod_chars invoked_command_name args
            parents
        else .notACommand

/-! ## Permission & cooldown gate (src/dispatch/common.rs)

Platform lookups that the gate awaits (guild cache, NSFW channel
resolution, `permissions::calculate_missing`) are oracle fields of the
context, as are the framework options it reads. -/

/-- The invocation context as seen by `check_permissions_and_cooldown`:
ids, the framework options it reads, and oracles for the awaited external
lookups. `calculate_missing` maps the required (user, bot) permission
bitsets to the missing (user, bot) bitsets, or `none` when the fetch
failed. -/
structure GateCtx where
  author_id : Nat
  channel_id : Nat
  guild_id : Option Nat
  owners : List Nat
  skip_checks_for_owners : Bool
  require_cache_for_guild_check : Bool
  manual_cooldowns : Bool
  command_check : Option CheckOutcome
  cache_has_guild : Nat → Bool
  nsfw_channel : Bool
  calculate_missing : Nat → Nat → Option (Nat × Nat)
  parent_commands : List CmdData
  command : CmdData

/-- src/structs/context.rs `Context::cooldown_context`. -/
def cooldown_context (ctx : GateCtx) : CooldownContext :=
  ⟨ctx.author_id, ctx.channel_id, ctx.guild_id⟩

/-- The check loop of `check_permissions_and_cooldown_single` (lines 94-107):
global check first, then the command's own checks; `Ok(false)` and `Err`
abort with `CommandCheckFailed`. -/
def run_checks : List CheckOutcome → Except FwError Unit
  | [] => .ok ()
  | .passed :: rest => run_checks rest
  | .failed :: _ => .error (.commandCheckFailed none)
  | .errored e :: _ => .error (.commandCheckFailed (some e))

/-- src/dispatch/common.rs `check_permissions_and_cooldown_single`: the
per-node gate. Note the cooldown step is guarded only by the GLOBAL
`FrameworkOptions::manual_cooldowns` (line 109); the per-command
`Command::manual_cooldowns` override is never consulted here. -/
def check_permissions_and_cooldown_single (ctx : GateCtx) (cmd : CmdData) :
    Except FwError Unit :=
  if ctx.skip_checks_for_owners && ctx.owners.contains ctx.author_id then
    .ok ()
  else if cmd.owners_only && !ctx.owners.contains ctx.author_id then
    .error .notAnOwner
  else if cmd.guild_only &&
      (match ctx.guild_id with
       | none => true
       | some gid =>
         ctx.require_cache_for_guild_check && !ctx.cache_has_guild gid) then
    .error .guildOnly
  else if cmd.dm_only && ctx.guild_id.isSome then
    .error .dmOnly
  else if cmd.nsfw_only && !ctx.nsfw_channel then
    .error .nsfwOnly
  else
    match ctx.calculate_missing cmd.required_permissions
        cmd.required_bot_permissions with
    | none => .error .permissionFetchFailed
    | some (user_missing_permissions, bot_missing_permissions) =>
      if user_missing_permissions ≠ 0 then
        .error (.missingUserPermissions (some user_missing_permissions))
      else if bot_missing_permissions ≠ 0 then
        .error (.missingBotPermissions bot_missing_permissions)
      else
        match run_checks (ctx.command_check.toList ++ cmd.checks) with
        | .error e => .error e
        | .ok () =>
          if !ctx.manual_cooldowns then
            match remaining_cooldown cmd.cooldowns (cooldown_context ctx)
                cmd.cooldown_config with
            | some remaining => .error (.cooldownHit remaining)
            | none => .ok ()
          else .ok ()

/-- The ancestor loop of `check_permissions_and_cooldown` (lines 133-135):
`?` aborts on the first failing ancestor. -/
def run_parents (ctx : GateCtx) : List CmdData → Except FwError Unit
  | [] => .ok ()
  | p :: rest =>
    match check_permissions_and_cooldown_single ctx p with
    | .error e => .error e
    | .ok () => run_parents ctx rest

/-- src/dispatch/common.rs `check_permissions_and_cooldown`: every ancestor
outermost-first, then the resolved leaf command. -/
def check_permissions_and_cooldown (ctx : GateCtx) : Except FwError Unit :=
  match run_parents ctx ctx.parent_commands with
  | .error e => .error e
  | .ok () => check_permissions_and_cooldown_single ctx ctx.command

/-- N sequential invocations of the gate on the same context, with no
start-cooldown call in between; the list collects each call's result. -/
def gate_calls : Nat → GateCtx → List (Except FwError Unit)
  | 0, _ => []
  | n + 1, ctx => check_permissions_and_cooldown ctx :: gate_calls n ctx

/-! ## Reply correlator, structured channel (src/reply/send_reply.rs,
`send_application_reply`)

The two HTTP sends are recorded as effects; `has_sent_initial_response` is
the atomic flag, read at line 66-68 and stored at line 87-88. The function
returns (handle, flag afterwards, effects emitted in order). -/

/-- An HTTP send performed by `send_application_reply`. -/
inductive SendEffect where
  | initial_response
  | followup
deriving DecidableEq

/-- The reply handle variants `send_application_reply` can return. -/
inductive AppReplyHandle where
  | autocomplete_sentinel
  | application (has_followup : Bool)
deriving DecidableEq

/-- src/reply/send_reply.rs `send_application_reply`. -/
def send_application_reply (is_autocomplete has_sent_initial_response : Bool) :
    AppReplyHandle × Bool × List SendEffect :=
  if is_autocomplete then
    (.autocomplete_sentinel, has_sent_initial_response, [])
  else if has_sent_initial_response then
    (.application true, has_sent_initial_response, [.followup])
  else
    (.application false, true, [.initial_response])

/-- Two sequential reply sends in the same interaction context, threading
the flag; returns the concatenated effect trace and the flags after each
send. -/
def two_sends (is_autocomplete initial_flag : Bool) :
    List SendEffect × Bool × Bool :=
  let r1 := send_application_reply is_autocomplete initial_flag
  let r2 := send_application_reply is_autocomplete r1.2.1
  (r1.2.2 ++ r2.2.2, r1.2.1, r2.2.1)

/-! ## Edit tracker (src/track_edits.rs) -/

/-- The fields of a `serenity::Message` the tracker reads (id, content,
timestamps). -/
structure MsgLite where
  id : Nat
  content : Str
  timestamp : Int
  edited_timestamp : Option Int
deriving DecidableEq

/-- src/track_edits.rs `CachedInvocation`. -/
structure CachedInvocation where
  user_msg : MsgLite
  bot_response : Option MsgLite
  track_deletion : Bool
deriving DecidableEq

/-- src/track_edits.rs `EditTracker`. -/
structure EditTracker where
  max_duration : Nat
  cache : List CachedInvocation
deriving DecidableEq

/-- Mutate the first cache entry whose user message has the given id, as
`iter_mut().find(..)` followed by a field assignment does. -/
def update_first (mid : Nat) (f : CachedInvocation → CachedInvocation) :
    List CachedInvocation → List CachedInvocation
  | [] => []
  | inv :: rest =>
    if inv.user_msg.id == mid then f inv :: rest
    else inv :: update_first mid f rest

/-- The `iter().find(..)` over the cache by user-message id. -/
def entryFor (t : EditTracker) (mid : Nat) : Option CachedInvocation :=
  t.cache.find? (fun invocation => invocation.user_msg.id == mid)

/-- src/track_edits.rs `EditTracker::process_message_update`. Returns the
trigger decision (`Some true` = re-run, was tracked; `Some false` = re-run,
was not tracked; `None` = do not re-run) and the tracker afterwards. -/
def process_message_update (t : EditTracker) (new_message : MsgLite)
    (ignore_edits_if_not_yet_responded : Bool) : Option Bool × EditTracker :=
  match entryFor t new_message.id with
  | some invocation =>
    if ignore_edits_if_not_yet_responded && invocation.bot_response.isNone then
      (none, t)
    else if new_message.content == invocation.user_msg.content then
      (none, t)
    else
      (some true,
        { t with
          cache := update_first new_message.id
            (fun inv => { inv with user_msg := new_message }) t.cache })
  | none =>
    if ignore_edits_if_not_yet_responded then (none, t) else (some false, t)

/-- Remove the first entry with the given user-message id, returning it and
the remaining list (`position` + `Vec::remove`). -/
def removeFirst (mid : Nat) :
    List CachedInvocation → Option (CachedInvocation × List CachedInvocation)
  | [] => none
  | inv :: rest =>
    if inv.user_msg.id == mid then some (inv, rest)
    else (removeFirst mid rest).map (fun p => (p.1, inv :: p.2))

/-- src/track_edits.rs `EditTracker::process_message_delete`: on a cache
miss the `?` returns early and the cache is untouched; on a hit the entry is
removed and its bot response is surfaced only under `track_deletion`. -/
def process_message_delete (t : EditTracker) (deleted_message_id : Nat) :
    Option MsgLite × EditTracker :=
  match removeFirst deleted_message_id t.cache with
  | none => (none, t)
  | some (invocation, rest) =>
    (if invocation.track_deletion then invocation.bot_response else none,
      { t with cache := rest })

/-- src/track_edits.rs `EditTracker::purge`; `now` stands for
`Timestamp::now()` taken inside the source. -/
def purge (t : EditTracker) (now : Int) : EditTracker :=
  { t with
    cache := t.cache.filter (fun invocation =>
      let last_update :=
        invocation.user_msg.edited_timestamp.getD invocation.user_msg.timestamp
      now - last_update < (t.max_duration : Int)) }

/-- src/track_edits.rs `EditTracker::find_bot_response`. -/
def find_bot_response (t : EditTracker) (user_msg_id : Nat) :
    Option MsgLite :=
  (entryFor t user_msg_id).bind (fun invocation => invocation.bot_response)

/-- src/track_edits.rs `EditTracker::set_bot_response`: overwrite the found
entry's bot response, else push a fresh entry. -/
def set_bot_response (t : EditTracker) (user_msg : MsgLite)
    (bot_response : MsgLite) (track_deletion : Bool) : EditTracker :=
  if (entryFor t user_msg.id).isSome then
    { t with
      cache := update_first user_msg.id
        (fun inv => { inv with bot_response := some bot_response }) t.cache }
  else
    { t with cache := t.cache ++ [⟨user_msg, some bot_response, track_deletion⟩] }

/-- src/track_edits.rs `EditTracker::track_command`: insert an entry with no
bot response unless one already exists for that message id. -/
def track_command (t : EditTracker) (user_msg : MsgLite)
    (track_deletion : Bool) : EditTracker :=
  if t.cache.any (fun invocation => invocation.user_msg.id == user_msg.id) then
    t
  else
    { t with cache := t.cache ++ [⟨user_msg, none, track_deletion⟩] }

/-- The Edit Tracker uniqueness invariant (spec §3): at most one cached
entry per originating message identity. -/
def idsNodup (t : EditTracker) : Prop :=
  (t.cache.map (fun invocation => invocation.user_msg.id)).Nodup

instance (t : EditTracker) : Decidable (idsNodup t) := by
  unfold idsNodup; infer_instance

/-! ## Concrete inputs used by the claims -/

/-- A leaf command named "ban" with `has_modifier` enabled. -/
def banCmd : Cmd := .node { blankData (str "ban") with has_modifier := true } []

/-- C2 input: a command whose per-command `manual_cooldowns` override is
`Some(true)` and whose cooldown tracker has 5 time units remaining for the
bucket key (user 1, channel 2, no guild). -/
def c2cmd : CmdData :=
  { blankData (str "work") with
    manual_cooldowns := some true
    cooldowns := ⟨[(⟨1, 2, none⟩, 5)]⟩ }

/-- C2 input: a context whose GLOBAL automatic-cooldown handling is enabled
(`manual_cooldowns = false`), with every other gate step passing. -/
def c2ctx : GateCtx where
  author_id := 1
  channel_id := 2
  guild_id := none
  owners := []
  skip_checks_for_owners := false
  require_cache_for_guild_check := false
  manual_cooldowns := false
  command_check := none
  cache_has_guild := fun _ => false
  nsfw_channel := false
  calculate_missing := fun _ _ => some (0, 0)
  parent_commands := []
  command := c2cmd

/-- C3 witness input: a `guild_only` parent command. -/
def c3parent : CmdData := { blankData (str "config") with guild_only := true }

/-- C3 witness input: a subcommand with no restrictions of its own. -/
def c3leaf : CmdData := blankData (str "show")

/-- C3 witness input: an invocation outside any guild (`guild_id = none`),
resolved to `c3leaf` under ancestor `c3parent`. -/
def c3ctx : GateCtx where
  author_id := 1
  channel_id := 2
  guild_id := none
  owners := []
  skip_checks_for_owners := false
  require_cache_for_guild_check := false
  manual_cooldowns := true
  command_check := none
  cache_has_guild := fun _ => false
  nsfw_channel := false
  calculate_missing := fun _ _ => some (0, 0)
  parent_commands := [c3parent]
  command := c3leaf

/-! ## Helper lemmas -/

/-- The ancestor loop returns the first failing ancestor's error, whatever
comes after it in the list. -/
lemma run_parents_first_error (ctx : GateCtx) (e : FwError) :
    ∀ (ps : List CmdData) (p : CmdData) (qs : List CmdData),
      (∀ c ∈ ps, check_permissions_and_cooldown_single ctx c = .ok ()) →
      check_permissions_and_cooldown_single ctx p = .error e →
      run_parents ctx (ps ++ p :: qs) = .error e
  | [], p, qs, _, hfail => by simp [run_parents, hfail]
  | c :: cs, p, qs, hok, hfail => by
    have hc := hok c (List.mem_cons_self c cs)
    have ih := run_parents_first_error ctx e cs p qs
      (fun x hx => hok x (List.mem_cons_of_mem c hx)) hfail
    simp [run_parents, hc, ih]

/-! ## Claim theorems -/

/-- C1: a leaf command "ban" with `has_modifier` is claimed to match input
"bantemp 5 @user" in both lookup modes, yielding modifier "temp" and rest
"5 @user". The code delivers that only case-insensitively; in the
case-sensitive mode `starts_with` slices the command NAME at the token's
length (`&needle[haystack.len()..]`, src/dispatch/prefix.rs line 188), an
out-of-bounds slice that panics (modelled as `.error ()`). -/
theorem c1_modifier_matching :
    find_command [banCmd] (str "bantemp 5 @user") false [] = .error () ∧
    find_command [banCmd] (str "bantemp 5 @user") true [] =
      .ok (some (banCmd, str "temp", str "bantemp", str "5 @user", [])) := by
  constructor <;>
    simp [find_command, banCmd, blankData, str, matchHeader, starts_with,
      starts_with_ignore_ascii_case, strStartsWith, sliceFrom, splitOnceWs,
      trimStart, isWs, eqIgnoreAsciiCase, asciiLower, string_equal,
      aliasModMatch, strEqIgnoreAsciiCase]

/-- C2: the per-command `manual_cooldowns := Some(true)` override is claimed
to disable the gate's cooldown query. In the code the gate consults only the
global `FrameworkOptions::manual_cooldowns` (src/dispatch/common.rs line
109), so with the global setting enabling automatic cooldowns the gate
queries this command's tracker anyway and denies with `CooldownHit`. -/
theorem c2_manual_cooldowns_override_ignored :
    c2cmd.manual_cooldowns = some true ∧
    c2ctx.manual_cooldowns = false ∧
    check_permissions_and_cooldown c2ctx = .error (.cooldownHit 5) :=
  ⟨rfl, rfl, rfl⟩

/-- C3: the gate checks each ancestor outermost-first and aborts on the
first failure: whenever some ancestor `p` fails with error `e` and every
earlier ancestor passes, the whole gate returns `e`, for any later ancestors
`qs` and any resolved leaf command in the context. -/
theorem c3_check_inheritance (ctx : GateCtx) (ps : List CmdData)
    (p : CmdData) (qs : List CmdData) (e : FwError)
    (hparents : ctx.parent_commands = ps ++ p :: qs)
    (hok : ∀ c ∈ ps, check_permissions_and_cooldown_single ctx c = .ok ())
    (hfail : check_permissions_and_cooldown_single ctx p = .error e) :
    check_permissions_and_cooldown ctx = .error e := by
  unfold check_permissions_and_cooldown
  rw [hparents, run_parents_first_error ctx e ps p qs hok hfail]

/-- C3 witness: a subcommand with no restrictions, under a `guild_only`
parent, invoked outside a guild, is denied with `GuildOnly`. -/
theorem c3_check_inheritance_witness :
    c3ctx.parent_commands = [] ++ c3parent :: [] ∧
    check_permissions_and_cooldown c3ctx = .error .guildOnly :=
  ⟨rfl, c3_check_inheritance c3ctx [] c3parent [] .guildOnly rfl
    (by simp) rfl⟩

/-- C5: the gate only reads cooldown state (the embedded
`remaining_cooldown` is the tracker's read-only query), so N sequential
gate calls on the same context return one identical result N times, with
identical remaining-time values in any `CooldownHit` denial. -/
theorem c5_gate_never_mutates (ctx : GateCtx) (n : Nat) :
    gate_calls n ctx = List.replicate n (check_permissions_and_cooldown ctx) := by
  induction n with
  | zero => rfl
  | succ k ih => simp [gate_calls, List.replicate_succ, ih]

/-- C6: in a non-autocomplete interaction context, a send emits the initial
response exactly when the initial-response flag is unset and a followup
otherwise, and leaves the flag set; two successive sends starting from an
unset flag produce exactly one initial response then one followup. -/
theorem c6_reply_correlator (has_sent_initial_response : Bool) :
    two_sends false false = ([.initial_response, .followup], true, true) ∧
    (send_application_reply false has_sent_initial_response).2.2 =
      (if has_sent_initial_response then [.followup]
       else [.initial_response]) ∧
    (send_application_reply false has_sent_initial_response).2.1 = true := by
  cases has_sent_initial_response <;> exact ⟨rfl, rfl, rfl⟩

/-- C8: prefix stripping equals the first success among the five strategies
in the spec's fixed priority order — dynamic callback, static literal,
additional prefixes in order, stripped-dynamic callback, bot mention — and
is `none` when all five decline. `firstSome` short-circuits, so equality
with it is exactly "return the first success without evaluating later
strategies". -/
theorem c8_strategy_priority (opts : PrefixOptions) (bot_id content : Str) :
    stripPrefix opts bot_id content =
      firstSome [strategyDynamic opts content, strategyStatic opts content,
        strategyAdditional opts content, strategyStrippedDynamic opts,
        strategyMention opts bot_id content] := by
  have step : stripPrefix opts bot_id content =
      (match strategyDynamic opts content with
       | some r => some r
       | none =>
         match strategyStatic opts content with
         | some r => some r
         | none =>
           match strategyAdditional opts content with
           | some r => some r
           | none =>
             match strategyStrippedDynamic opts with
             | some r => some r
             | none => strategyMention opts bot_id content) := rfl
  rw [step]
  cases strategyDynamic opts content <;>
    cases strategyStatic opts content <;>
      cases strategyAdditional opts content <;>
        cases strategyStrippedDynamic opts <;>
          cases strategyMention opts bot_id content <;> rfl

/-- C4 input: a registered command with a slash action but no prefix-style
execution action. -/
def c4cmd : Cmd :=
  .node { blankData (str "slashonly") with
    prefix_action := false
    slash_action := true } []

/-- C4 input: prefix options with the single static prefix "!". -/
def c4opts : PrefixOptions where
  dynamic_prefix := none
  static_prefix := some (str "!")
  additional_prefixes := []
  stripped_dynamic_prefix := none
  mention_as_prefix := false
  case_insensitive_commands := false
  ignore_bots := true
  execute_self_messages := false
  ignore_thread_creation := true

/-- C4 input: an ordinary user message invoking the slash-only command by
prefix text. -/
def c4msg : MsgIn where
  content := str "!slashonly"
  author_is_bot := false
  author_is_current_user := false
  kind_thread_created := false

/-- C4 counterexample: the message strips the prefix and resolves to the
registered command (second conjunct), yet `parse_invocation` returns
`Ok(None)` — the "not a command invocation" outcome — instead of reporting
any error: the situation IS silently dropped into the non-command path. -/
theorem c4_counterexample :
    parse_invocation c4opts [c4cmd] (str "1") c4msg = .notACommand ∧
    find_command [c4cmd] (str "slashonly") false [] =
      .ok (some (c4cmd, [], str "slashonly", [], [])) := by
  constructor <;>
    simp [parse_invocation, c4opts, c4msg, c4cmd, blankData, str, stripPrefix,
      stripLit, trimStart, isWs, find_command, matchHeader, string_equal,
      strEqIgnoreAsciiCase, splitOnceWs, Cmd.data, Cmd.subcommands,
      strStartsWith, starts_with, starts_with_ignore_ascii_case, sliceFrom,
      aliasModMatch, eqIgnoreAsciiCase, asciiLower]

/-- C4 (amended): when a message passes the bot/self/thread filters, strips
a prefix, and resolves to a command that has no prefix action,
`parse_invocation` returns `Ok(None)`: the message is treated as not being a
command invocation (it falls through to the non-command-message handler),
and no error is reported for it. -/
theorem c4_no_prefix_action_is_not_a_command (opts : PrefixOptions)
    (commands : List Cmd) (bot_id : Str) (msg : MsgIn) (command : Cmd)
    (matched msg_content mod_chars invoked args : Str) (parents : List Cmd)
    (h1 : (msg.author_is_bot && opts.ignore_bots) = false)
    (h2 : (msg.author_is_current_user && !opts.execute_self_messages) = false)
    (h3 : (msg.kind_thread_created && opts.ignore_thread_creation) = false)
    (h4 : stripPrefix opts bot_id msg.content = some (matched, msg_content))
    (h5 : find_command commands (trimStart msg_content)
        opts.case_insensitive_commands [] =
      .ok (some (command, mod_chars, invoked, args, parents)))
    (h6 : command.data.prefix_action = false) :
    parse_invocation opts commands bot_id msg = .notACommand := by
  unfold parse_invocation
  rw [h1, h2, h3, h4]
  simp only [h5, h6]
  rfl

/-- C4 witness: the amended claim at the concrete slash-only input. -/
theorem c4_no_prefix_action_witness :
    parse_invocation c4opts [c4cmd] (str "1") c4msg = .notACommand :=
  c4_no_prefix_action_is_not_a_command c4opts [c4cmd] (str "1") c4msg c4cmd
    (str "!") (str "slashonly") [] (str "slashonly") [] []
    rfl rfl rfl rfl
    (by simp [find_command, c4cmd, blankData, str, matchHeader, string_equal,
      strEqIgnoreAsciiCase, splitOnceWs, trimStart, isWs, Cmd.data,
      Cmd.subcommands, eqIgnoreAsciiCase, asciiLower])
    rfl

/-- `find?` over a first-match update: when the updater keeps the matched
entry's id, the found entry is exactly the updated one. -/
lemma find?_update_first (mid : Nat)
    (f : CachedInvocation → CachedInvocation)
    (hf : ∀ i, i.user_msg.id = mid → (f i).user_msg.id = mid) :
    ∀ (cache : List CachedInvocation) (inv : CachedInvocation),
      cache.find? (fun i => i.user_msg.id == mid) = some inv →
      (update_first mid f cache).find? (fun i => i.user_msg.id == mid) =
        some (f inv)
  | [], inv, hfind => by simp at hfind
  | a :: rest, inv, hfind => by
    by_cases h : a.user_msg.id = mid
    · have ha : (a.user_msg.id == mid) = true := by simp [h]
      have hfa : ((f a).user_msg.id == mid) = true := by simp [hf a h]
      simp only [List.find?_cons, ha] at hfind
      simp only [update_first, ha, if_true, List.find?_cons, hfa]
      simp only [Option.some.injEq] at hfind
      rw [hfind]
    · have ha : (a.user_msg.id == mid) = false := by simp [h]
      simp only [List.find?_cons, ha] at hfind
      simp only [update_first, ha, Bool.false_eq_true, if_false,
        List.find?_cons]
      exact find?_update_first mid f hf rest inv hfind

/-- C7 input: a message-update event for an untracked message. -/
def c7msg : MsgLite := ⟨1, str "hello", 0, none⟩

/-- C7 input: a tracker with an empty cache. -/
def c7empty : EditTracker := ⟨60, []⟩

/-- C7 counterexample: with `ignore_edits_if_not_yet_responded = true`, an
update for a message with no cached entry yields the "do not re-run"
decision `None`, not the claimed "not-yet-tracked" decision `Some(false)`. -/
theorem c7_counterexample :
    entryFor c7empty c7msg.id = none ∧
    process_message_update c7empty c7msg true = (none, c7empty) ∧
    (process_message_update c7empty c7msg true).1 ≠ some false :=
  ⟨rfl, rfl, by decide⟩

/-- C7 (amended): with `ignore_edits_if_not_yet_responded = false`, the
claimed decision table holds: no cached entry gives the not-yet-tracked
decision `Some(false)`; an entry with unchanged content gives no-re-trigger
`None` with the cache untouched; an entry with changed content gives
re-trigger `Some(true)` and the cached snapshot is replaced by the new
message. With the flag `true`, an update for an untracked message, and one
for a tracked invocation that has no bot response yet, instead return `None`
(no re-trigger) without touching the cache. -/
theorem c7_edit_decision (t : EditTracker) (m : MsgLite) :
    (entryFor t m.id = none →
      process_message_update t m false = (some false, t) ∧
      process_message_update t m true = (none, t)) ∧
    (∀ inv, entryFor t m.id = some inv →
      (m.content = inv.user_msg.content →
        process_message_update t m false = (none, t)) ∧
      (m.content ≠ inv.user_msg.content →
        (process_message_update t m false).1 = some true ∧
        entryFor (process_message_update t m false).2 m.id =
          some { inv with user_msg := m }) ∧
      (inv.bot_response = none →
        process_message_update t m true = (none, t))) := by
  refine ⟨fun h => ⟨by simp [process_message_update, h],
    by simp [process_message_update, h]⟩, fun inv h => ⟨?_, ?_, ?_⟩⟩
  · intro hc
    simp [process_message_update, h, hc]
  · intro hc
    have hres : process_message_update t m false =
        (some true,
          { t with
            cache := update_first m.id
              (fun i => { i with user_msg := m }) t.cache }) := by
      simp [process_message_update, h, hc]
    rw [hres]
    refine ⟨rfl, ?_⟩
    exact find?_update_first m.id _ (fun i _ => rfl) t.cache inv h
  · intro hbr
    simp [process_message_update, h, hbr]

/-- C7 witness: a tracked entry whose content changed re-triggers and the
cached snapshot is updated. -/
theorem c7_edit_decision_witness :
    (process_message_update ⟨60, [⟨⟨1, str "old", 0, none⟩,
        some ⟨9, str "r", 0, none⟩, false⟩]⟩ ⟨1, str "new", 0, some 1⟩
      false).1 = some true ∧
    entryFor (process_message_update ⟨60, [⟨⟨1, str "old", 0, none⟩,
        some ⟨9, str "r", 0, none⟩, false⟩]⟩ ⟨1, str "new", 0, some 1⟩
      false).2 1 =
      some ⟨⟨1, str "new", 0, some 1⟩, some ⟨9, str "r", 0, none⟩, false⟩ := by
  have h := (c7_edit_decision ⟨60, [⟨⟨1, str "old", 0, none⟩,
      some ⟨9, str "r", 0, none⟩, false⟩]⟩ ⟨1, str "new", 0, some 1⟩).2
    ⟨⟨1, str "old", 0, none⟩, some ⟨9, str "r", 0, none⟩, false⟩ rfl
  have h2 := h.2.1 (by decide)
  exact ⟨h2.1, h2.2⟩

/-- A first-match update whose updater keeps the matched id fixed leaves the
list of cached message ids unchanged. -/
lemma map_ids_update_first (mid : Nat)
    (f : CachedInvocation → CachedInvocation)
    (hf : ∀ i, i.user_msg.id = mid → (f i).user_msg.id = mid) :
    ∀ cache : List CachedInvocation,
      (update_first mid f cache).map (fun i => i.user_msg.id) =
        cache.map (fun i => i.user_msg.id)
  | [] => rfl
  | a :: rest => by
    by_cases h : a.user_msg.id = mid
    · simp [update_first, h, hf a h]
    · simp [update_first, h, map_ids_update_first mid f hf rest]

/-- A first-match update is invisible to any projection the updater
preserves. -/
lemma map_update_first_of {β : Type} (mid : Nat)
    (f : CachedInvocation → CachedInvocation) (g : CachedInvocation → β)
    (hg : ∀ i, g (f i) = g i) :
    ∀ cache : List CachedInvocation,
      (update_first mid f cache).map g = cache.map g
  | [] => rfl
  | a :: rest => by
    by_cases h : a.user_msg.id = mid
    · simp [update_first, h, hg]
    · simp [update_first, h, map_update_first_of mid f g hg rest]

/-- Removing the first match leaves a sublist of the cache. -/
lemma removeFirst_sublist (mid : Nat) :
    ∀ (cache : List CachedInvocation) (inv : CachedInvocation)
      (rest : List CachedInvocation),
      removeFirst mid cache = some (inv, rest) → rest.Sublist cache
  | [], _, _, h => by simp [removeFirst] at h
  | a :: xs, inv, rest, h => by
    by_cases ha : a.user_msg.id = mid
    · simp only [removeFirst, ha, beq_self_eq_true, if_true,
        Option.some.injEq, Prod.mk.injEq] at h
      rw [← h.2]
      exact List.sublist_cons_self a xs
    · have hb : (a.user_msg.id == mid) = false := by simp [ha]
      simp only [removeFirst, hb, Bool.false_eq_true, if_false,
        Option.map_eq_some'] at h
      obtain ⟨⟨i2, r2⟩, hsome, heq⟩ := h
      simp only [Prod.mk.injEq] at heq
      rw [← heq.2]
      exact (removeFirst_sublist mid xs i2 r2 hsome).cons₂ a

/-- Appending an entry whose message id is fresh keeps the ids nodup. -/
lemma nodup_ids_push (cache : List CachedInvocation) (e : CachedInvocation)
    (hnd : (cache.map fun i => i.user_msg.id).Nodup)
    (hnot : ∀ i ∈ cache, i.user_msg.id ≠ e.user_msg.id) :
    ((cache ++ [e]).map fun i => i.user_msg.id).Nodup := by
  rw [List.map_append, List.nodup_append]
  refine ⟨hnd, List.nodup_singleton _, ?_⟩
  intro x hx hx2
  simp only [List.map_cons, List.map_nil, List.mem_singleton] at hx2
  obtain ⟨i, hi, rfl⟩ := List.mem_map.mp hx
  exact hnot i hi hx2

/-- C9: every tracker operation preserves the at-most-one-entry-per-message
invariant, a second `track_command` for the same message is a no-op, and
after `track_command` there is exactly one entry for that message id. -/
theorem c9_uniqueness_invariant (t : EditTracker)
    (m resp new_msg : MsgLite) (td td2 ig : Bool) (mid : Nat) (now : Int)
    (h : idsNodup t) :
    idsNodup (track_command t m td) ∧
    idsNodup (set_bot_response t m resp td) ∧
    idsNodup (process_message_update t new_msg ig).2 ∧
    idsNodup (process_message_delete t mid).2 ∧
    idsNodup (purge t now) ∧
    track_command (track_command t m td) m td2 = track_command t m td ∧
    (track_command t m td).cache.countP
      (fun inv => inv.user_msg.id == m.id) = 1 := by
  refine ⟨?_, ?_, ?_, ?_, ?_, ?_, ?_⟩
  · by_cases hany : t.cache.any (fun i => i.user_msg.id == m.id) = true
    · simpa [track_command, hany] using h
    · have hnot : ∀ i ∈ t.cache, i.user_msg.id ≠ m.id := by
        intro i hi hcontra
        exact hany (List.any_eq_true.mpr ⟨i, hi, by simp [hcontra]⟩)
      simp only [track_command, hany, Bool.false_eq_true, if_false]
      exact nodup_ids_push t.cache ⟨m, none, td⟩ h hnot
  · by_cases hS : (entryFor t m.id).isSome = true
    · simp only [set_bot_response, hS, if_true]
      show ((update_first m.id
          (fun inv => { inv with bot_response := some resp })
          t.cache).map (fun i => i.user_msg.id)).Nodup
      rw [map_ids_update_first m.id
        (fun inv => { inv with bot_response := some resp })
        (fun i hi => hi)]
      exact h
    · have hnone : entryFor t m.id = none := by
        cases hE : entryFor t m.id
        · rfl
        · rw [hE] at hS; simp at hS
      have hnot : ∀ i ∈ t.cache, i.user_msg.id ≠ m.id := by
        unfold entryFor at hnone
        rw [List.find?_eq_none] at hnone
        intro i hi hcontra
        exact hnone i hi (by simp [hcontra])
      simp only [set_bot_response, hS, Bool.false_eq_true, if_false]
      exact nodup_ids_push t.cache ⟨m, some resp, td⟩ h hnot
  · unfold process_message_update
    split
    · split
      · exact h
      · split
        · exact h
        · show ((update_first new_msg.id
              (fun inv => { inv with user_msg := new_msg })
              t.cache).map (fun i => i.user_msg.id)).Nodup
          rw [map_ids_update_first new_msg.id
            (fun inv => { inv with user_msg := new_msg }) (fun i _ => rfl)]
          exact h
    · split
      · exact h
      · exact h
  · unfold process_message_delete
    cases hR : removeFirst mid t.cache with
    | none => exact h
    | some p =>
      obtain ⟨inv, rest⟩ := p
      have hsub := removeFirst_sublist mid t.cache inv rest hR
      exact h.sublist (hsub.map _)
  · exact h.sublist ((List.filter_sublist _).map _)
  · by_cases hany : t.cache.any (fun i => i.user_msg.id == m.id) = true
    · simp [track_command, hany]
    · simp only [track_command, hany, Bool.false_eq_true, if_false]
      have hagain : (((t.cache ++
          [(⟨m, none, td⟩ : CachedInvocation)]).any
          (fun i => i.user_msg.id == m.id))) = true := by
        simp [List.any_append]
      simp [hagain]
  · by_cases hany : t.cache.any (fun i => i.user_msg.id == m.id) = true
    · have hmem : m.id ∈ t.cache.map (fun i => i.user_msg.id) := by
        obtain ⟨i, hi, hid⟩ := List.any_eq_true.mp hany
        exact List.mem_map.mpr ⟨i, hi, by simpa using hid⟩
      have hcount : (t.cache.map (fun i => i.user_msg.id)).count m.id = 1 :=
        List.count_eq_one_of_mem h hmem
      rw [List.count, List.countP_map] at hcount
      simpa [track_command, hany] using hcount
    · have hzero : t.cache.countP (fun i => i.user_msg.id == m.id) = 0 := by
        rw [List.countP_eq_zero]
        intro i hi hcontra
        exact hany (List.any_eq_true.mpr ⟨i, hi, hcontra⟩)
      simp [track_command, hany, List.countP_append, hzero]

/-- C9 witness: the invariant statement applied to a concrete one-entry
tracker. -/
theorem c9_uniqueness_invariant_witness :
    idsNodup (track_command ⟨60, [⟨⟨1, str "a", 0, none⟩, none, true⟩]⟩
      ⟨2, str "b", 0, none⟩ true) ∧
    (track_command ⟨60, [⟨⟨1, str "a", 0, none⟩, none, true⟩]⟩
        ⟨2, str "b", 0, none⟩ true).cache.countP
      (fun inv => inv.user_msg.id == (2 : Nat)) = 1 := by
  have h := c9_uniqueness_invariant
    ⟨60, [⟨⟨1, str "a", 0, none⟩, none, true⟩]⟩ ⟨2, str "b", 0, none⟩
    ⟨3, str "c", 0, none⟩ ⟨4, str "d", 0, none⟩ true false true 7 100
    (by decide)
  exact ⟨h.1, h.2.2.2.2.2.2⟩

/-- C10: when an entry already exists for the message, `set_bot_response`
only replaces that entry's bot response: the `track_deletion` argument is
ignored (identical results for both values), the found entry afterwards is
the old entry with only `bot_response` overwritten, and every entry's user
message snapshot and deletion-tracking flag are unchanged. -/
theorem c10_set_bot_response_frame (t : EditTracker) (m resp : MsgLite)
    (td1 td2 : Bool) (inv : CachedInvocation)
    (h : entryFor t m.id = some inv) :
    set_bot_response t m resp td1 = set_bot_response t m resp td2 ∧
    entryFor (set_bot_response t m resp td1) m.id =
      some { inv with bot_response := some resp } ∧
    (set_bot_response t m resp td1).cache.map
        (fun i => (i.user_msg, i.track_deletion)) =
      t.cache.map (fun i => (i.user_msg, i.track_deletion)) := by
  have hS : (entryFor t m.id).isSome = true := by rw [h]; rfl
  refine ⟨by simp [set_bot_response, hS], ?_, ?_⟩
  · simp only [set_bot_response, hS, if_true]
    exact find?_update_first m.id
      (fun i => { i with bot_response := some resp })
      (fun i hi => hi) t.cache inv h
  · simp only [set_bot_response, hS, if_true]
    exact map_update_first_of m.id
      (fun i => { i with bot_response := some resp })
      (fun i => (i.user_msg, i.track_deletion)) (fun i => rfl) t.cache

/-- C10 witness: the frame property at a concrete tracked entry. -/
theorem c10_set_bot_response_frame_witness :
    set_bot_response ⟨60, [⟨⟨1, str "x", 0, none⟩, none, true⟩]⟩
        ⟨1, str "x", 0, none⟩ ⟨5, str "ok", 0, none⟩ true =
      set_bot_response ⟨60, [⟨⟨1, str "x", 0, none⟩, none, true⟩]⟩
        ⟨1, str "x", 0, none⟩ ⟨5, str "ok", 0, none⟩ false ∧
    entryFor (set_bot_response ⟨60, [⟨⟨1, str "x", 0, none⟩, none, true⟩]⟩
        ⟨1, str "x", 0, none⟩ ⟨5, str "ok", 0, none⟩ true) 1 =
      some ⟨⟨1, str "x", 0, none⟩, some ⟨5, str "ok", 0, none⟩, true⟩ := by
  have h := c10_set_bot_response_frame
    ⟨60, [⟨⟨1, str "x", 0, none⟩, none, true⟩]⟩ ⟨1, str "x", 0, none⟩
    ⟨5, str "ok", 0, none⟩ true false
    ⟨⟨1, str "x", 0, none⟩, none, true⟩ rfl
  exact ⟨h.1, h.2.1⟩

end Lumi
